import Mathlib

/-!
# Verification of `roundtrip_tester/src/lib.rs`

A shallow embedding of the borsh round-trip conformance harness.  Bytes are
modelled as `Nat` (the values produced by the encoders are `< 256`); machine
integers are `Nat`/`Int` with explicit reduction modulo `2^w`; the `f64` field
is modelled by its 64-bit IEEE-754 pattern, which is what borsh reads and
writes (`f64::to_bits` / `f64::from_bits`).  Rust panics (`unwrap`,
`assert_eq!`, `panic!`) become the `RunError` side of an `Except`.
-/

/-- Little-endian value of a byte list: `b0 + 256*b1 + 256^2*b2 + ...`
(the semantics of `from_le_bytes` on the bytes read). -/
def leVal : List Nat → Nat
  | [] => 0
  | b :: bs => b + 256 * leVal bs

/-- Little-endian byte list of width `w` for a value `n` (the semantics of
`to_le_bytes`; each byte is reduced `% 256`). -/
def leBytes (w : Nat) (n : Nat) : List Nat :=
  (List.range w).map fun i => n / 256 ^ i % 256

/-- Read exactly `n` bytes from the front of the stream, failing like
`Read::read_exact` when fewer than `n` remain. -/
def readN (n : Nat) (bs : List Nat) : Option (List Nat × List Nat) :=
  if n ≤ bs.length then some (bs.take n, bs.drop n) else none

/-- Borsh `u32::deserialize_reader`: four little-endian bytes. -/
def readU32 (bs : List Nat) : Option (Nat × List Nat) :=
  (readN 4 bs).map fun p => (leVal p.1, p.2)

/-- Borsh `u128::deserialize_reader`: sixteen little-endian bytes. -/
def readU128 (bs : List Nat) : Option (Nat × List Nat) :=
  (readN 16 bs).map fun p => (leVal p.1, p.2)

/-- Borsh `u64::deserialize_reader`: eight little-endian bytes. -/
def readU64 (bs : List Nat) : Option (Nat × List Nat) :=
  (readN 8 bs).map fun p => (leVal p.1, p.2)

/-- Reinterpret a `u32` bit pattern as an `i32` (two's complement), as
`i32::from_le_bytes` does. -/
def toI32 (n : Nat) : Int :=
  if n < 2 ^ 31 then (n : Int) else (n : Int) - 2 ^ 32

/-- Borsh `i32::deserialize_reader`: four little-endian bytes, two's complement. -/
def readI32 (bs : List Nat) : Option (Int × List Nat) :=
  (readN 4 bs).map fun p => (toI32 (leVal p.1), p.2)

/-- An IEEE-754 double bit pattern is a NaN: exponent field all ones and a
non-zero mantissa.  borsh rejects NaN at deserialization time. -/
def isNanBits (x : Nat) : Bool :=
  x / 2 ^ 52 % 2 ^ 11 == 2047 && x % 2 ^ 52 != 0

/-- An IEEE-754 double bit pattern denotes a zero (`+0.0` or `-0.0`). -/
def isZeroBits (x : Nat) : Bool :=
  x == 0 || x == 2 ^ 63

/-- IEEE-754 (Rust `PartialEq`) equality on double bit patterns: NaN equals
nothing, the two zeros are equal, and otherwise equality is bitwise. -/
def f64Eq (a b : Nat) : Bool :=
  if isNanBits a || isNanBits b then false
  else if isZeroBits a && isZeroBits b then true
  else a == b

/-- Borsh `f64::deserialize_reader`: eight little-endian bytes interpreted via
`from_bits`, with borsh's explicit NaN rejection (`FLOAT_NAN_ERROR`). -/
def readF64 (bs : List Nat) : Option (Nat × List Nat) := do
  let (x, bs) ← readU64 bs
  if isNanBits x then none else pure (x, bs)

/-- A UTF-8 continuation byte (`0x80..=0xBF`). -/
def utf8Cont (b : Nat) : Bool := 0x80 ≤ b && b ≤ 0xBF

/-- UTF-8 validity of a byte list, per RFC 3629 as enforced by Rust's
`String::from_utf8` (shortest form only, no surrogates, max U+10FFFF). -/
def utf8Valid : List Nat → Bool
  | [] => true
  | b :: bs =>
    if b ≤ 0x7F then utf8Valid bs
    else if 0xC2 ≤ b && b ≤ 0xDF then
      match bs with
      | c1 :: bs2 => utf8Cont c1 && utf8Valid bs2
      | [] => false
    else if b == 0xE0 then
      match bs with
      | c1 :: c2 :: bs2 => (0xA0 ≤ c1 && c1 ≤ 0xBF) && utf8Cont c2 && utf8Valid bs2
      | _ => false
    else if (0xE1 ≤ b && b ≤ 0xEC) || b == 0xEE || b == 0xEF then
      match bs with
      | c1 :: c2 :: bs2 => utf8Cont c1 && utf8Cont c2 && utf8Valid bs2
      | _ => false
    else if b == 0xED then
      match bs with
      | c1 :: c2 :: bs2 => (0x80 ≤ c1 && c1 ≤ 0x9F) && utf8Cont c2 && utf8Valid bs2
      | _ => false
    else if b == 0xF0 then
      match bs with
      | c1 :: c2 :: c3 :: bs2 =>
          (0x90 ≤ c1 && c1 ≤ 0xBF) && utf8Cont c2 && utf8Cont c3 && utf8Valid bs2
      | _ => false
    else if 0xF1 ≤ b && b ≤ 0xF3 then
      match bs with
      | c1 :: c2 :: c3 :: bs2 =>
          utf8Cont c1 && utf8Cont c2 && utf8Cont c3 && utf8Valid bs2
      | _ => false
    else if b == 0xF4 then
      match bs with
      | c1 :: c2 :: c3 :: bs2 =>
          (0x80 ≤ c1 && c1 ≤ 0x8F) && utf8Cont c2 && utf8Cont c3 && utf8Valid bs2
      | _ => false
    else false

/-- Borsh `String::deserialize_reader`: a `u32` length, that many raw bytes, then
UTF-8 validation (`String::from_utf8`); invalid UTF-8 is a decode error. -/
def readString (bs : List Nat) : Option (List Nat × List Nat) := do
  let (len, bs) ← readU32 bs
  let (s, bs) ← readN len bs
  if utf8Valid s then pure (s, bs) else none

/-- The element loop of `Vec::<i32>::deserialize_reader`: read `n` further
`i32` values. -/
def readI32s : Nat → List Nat → Option (List Int × List Nat)
  | 0, bs => some ([], bs)
  | n + 1, bs => do
    let (v, bs) ← readI32 bs
    let (vs, bs) ← readI32s n bs
    pure (v :: vs, bs)

/-- Borsh `Vec::<i32>::deserialize_reader`: a `u32` length then that many `i32`s. -/
def readVecI32 (bs : List Nat) : Option (List Int × List Nat) := do
  let (len, bs) ← readU32 bs
  let (vs, bs) ← readI32s len bs
  pure (vs, bs)

/-- The struct from `lib.rs`:
`struct TestCase0 { name: String, age: u128, prob: f64, data: Vec<i32> }`.
`name` is the UTF-8 byte content of the `String`; `prob` is the `f64` bit
pattern. -/
structure TestCase0 where
  name : List Nat
  age : Nat
  prob : Nat
  data : List Int
deriving DecidableEq

/-- Derived `BorshDeserialize for TestCase0`: the four fields in declaration
order. -/
def deserializeTestCase0 (bs : List Nat) : Option (TestCase0 × List Nat) := do
  let (name, bs) ← readString bs
  let (age, bs) ← readU128 bs
  let (prob, bs) ← readF64 bs
  let (data, bs) ← readVecI32 bs
  pure (⟨name, age, prob, data⟩, bs)

/-- The function `borsh::from_slice::<TestCase0>`: deserialize and then require that every
input byte was consumed (`ERROR_NOT_ALL_BYTES_READ` otherwise). -/
def from_slice (bs : List Nat) : Option TestCase0 :=
  match deserializeTestCase0 bs with
  | some (v, []) => some v
  | _ => none

/-- Encoding of an `i32` as four little-endian two's-complement bytes. -/
def i32Bytes (v : Int) : List Nat :=
  leBytes 4 (v % 2 ^ 32).toNat

/-- The function `borsh::to_vec::<TestCase0>`: `u32` name length + name bytes, 16-byte
little-endian `age`, 8-byte little-endian `prob` bits, `u32` data length +
four bytes per element.  (The source's `f64` serializer asserts the value is
not NaN; it is only ever applied to the registry's canonical values, whose
`prob` fields are not NaN.) -/
def to_vec (v : TestCase0) : List Nat :=
  leBytes 4 v.name.length ++ v.name ++ leBytes 16 v.age ++ leBytes 8 v.prob ++
    leBytes 4 v.data.length ++ (v.data.map i32Bytes).flatten

/-- Rust `PartialEq for TestCase0` (derived): field-by-field, with IEEE
equality on the `f64` field. -/
def tcEq (a b : TestCase0) : Bool :=
  a.name == b.name && a.age == b.age && f64Eq a.prob b.prob && a.data == b.data

/-- The panic conditions of `lib.rs`, with the data each panic message
carries: `panic!("unknown id: {}", id)` interpolates the identifier;
`from_slice(..).unwrap()` carries the io error; `assert_eq!(input, output)`
carries the two compared values (and nothing else). -/
inductive RunError where
  | UnsupportedCase : Nat → RunError
  | DecodeError : RunError
  | RoundTripMismatch : TestCase0 → TestCase0 → RunError
deriving DecidableEq

/-- The identifier carried by a failure report, when one is: only the
`unknown id` panic interpolates the identifier into its message. -/
def reportedId : RunError → Option Nat
  | .UnsupportedCase i => some i
  | .DecodeError => none
  | .RoundTripMismatch _ _ => none

/-- The oracle `run_case::<TestCase0>`: decode the input (panicking on failure), assert
equality with the canonical value, re-encode the canonical value. -/
def run_case (input : List Nat) (output : TestCase0) : Except RunError (List Nat) :=
  match from_slice input with
  | none => .error .DecodeError
  | some v =>
    if tcEq v output then .ok (to_vec output)
    else .error (.RoundTripMismatch v output)

/-- The canonical value registered under id `0`:
`TestCase0 { name: "ccccc", age: 541212312321534534, prob: 0.69, data: vec![31, 69] }`.
`4604390187031047700 = 0x3FE6147AE147AE14` is the IEEE-754 bit pattern of the
Rust literal `0.69`. -/
def canonical0 : TestCase0 :=
  ⟨[99, 99, 99, 99, 99], 541212312321534534, 4604390187031047700, [31, 69]⟩

/-- The case registry, read off the `match id` in `run_test`: id `0` maps to
`canonical0`; every other identifier is unregistered. -/
def canonicalOf (id : Nat) : Option TestCase0 :=
  if id = 0 then some canonical0 else none

/-- The dispatcher `run_test`: dispatch on the identifier; unknown identifiers panic with
`unknown id: {id}`. -/
def run_test (id : Nat) (input : List Nat) : Except RunError (List Nat) :=
  match id with
  | 0 => run_case input canonical0
  | _ => .error (.UnsupportedCase id)

/-- What the FFI entry point leaves in the caller's out-parameters, plus the
bytes of the transferred buffer.  `ptr` is the address `out.as_mut_ptr()`
written through `output`; a Rust `Vec`'s pointer is never null, which the
model renders as the fixed non-zero address `1`.  `buf` is the content of the
allocation, which `std::mem::forget(out)` keeps alive past the return. -/
structure FfiOut where
  ptr : Nat
  len : Nat
  buf : List Nat
deriving DecidableEq

/-- The FFI entry point `roundtrip_test_case`: read the input slice, run the oracle, store the
buffer's pointer and length through the out-parameters, and leak the buffer
(`std::mem::forget`) so it stays valid for the caller. -/
def roundtrip_test_case (id : Nat) (input : List Nat) : Except RunError FfiOut :=
  (run_test id input).map fun out => ⟨1, out.length, out⟩

/-- The `#[unsafe(no_mangle)] pub unsafe extern "C"` symbols exported by
`lib.rs`.  `roundtrip_test_case` is the only one; in particular no release /
free entry point is exported. -/
def exportedEntryPoints : List String := ["roundtrip_test_case"]

/-- The adapter suppresses its own cleanup of the output buffer
(`std::mem::forget(out)`), i.e. it follows the transfer-of-ownership
protocol. -/
def transfersOwnership : Bool := true

/-- Decidable equality of oracle results, so that concrete runs can be
checked by evaluation. -/
instance {ε α : Type} [DecidableEq ε] [DecidableEq α] : DecidableEq (Except ε α)
  | .error e, .error f => decidable_of_iff (e = f) (by simp)
  | .error _, .ok _ => isFalse (by simp)
  | .ok _, .error _ => isFalse (by simp)
  | .ok x, .ok y => decidable_of_iff (x = y) (by simp)

/-- The value that differs from `canonical0` in exactly one field
(`data = vec![31, 70]` instead of `vec![31, 69]`). -/
def mismatchValue : TestCase0 :=
  ⟨canonical0.name, canonical0.age, canonical0.prob, [31, 70]⟩

/-- A well-formed encoding of `mismatchValue`, used to exercise the mismatch
branch of `run_case`. -/
def mismatchInput : List Nat := to_vec mismatchValue

/- ------------------------------------------------------------------ -/
/- Helper lemmas shared by the claim proofs.                           -/
/- ------------------------------------------------------------------ -/

/-- Registry inversion: the only registered identifier is `0`, with
`canonical0` as its canonical value. -/
theorem canonicalOf_inv (id : Nat) (v : TestCase0) (h : canonicalOf id = some v) :
    id = 0 ∧ v = canonical0 := by
  by_cases h0 : id = 0
  · subst h0
    simp only [canonicalOf, if_true, Option.some.injEq, reduceIte] at h
    exact ⟨rfl, h.symm⟩
  · simp [canonicalOf, h0] at h

/-- Success inversion for the oracle: a successful run can only happen for
identifier `0`, and the returned bytes are the re-encoding of `canonical0`. -/
theorem run_ok_shape (id : Nat) (input : List Nat) (out : List Nat)
    (h : run_test id input = .ok out) : id = 0 ∧ out = to_vec canonical0 := by
  match id with
  | 0 =>
    refine ⟨rfl, ?_⟩
    have h' : run_case input canonical0 = .ok out := h
    unfold run_case at h'
    split at h'
    · exact Except.noConfusion h'
    · split at h'
      · exact (Except.ok.inj h').symm
      · exact Except.noConfusion h'
  | n + 1 => exact Except.noConfusion h

/-- Every strict prefix of the canonical encoding for case `0` is rejected by
`from_slice` (the decoder runs out of bytes). -/
theorem prefix_invalid :
    ∀ n, n < 45 → from_slice ((to_vec canonical0).take n) = none := by decide

/- ------------------------------------------------------------------ -/
/- Claim theorems.                                                     -/
/- ------------------------------------------------------------------ -/

/-- C1: for every identifier registered in the case registry, running the
oracle on the encoding of its canonical value succeeds, and the returned
bytes decode back to a value structurally equal to the canonical value. -/
theorem roundtrip_idempotence (id : Nat) (v : TestCase0)
    (h : canonicalOf id = some v) :
    run_test id (to_vec v) = .ok (to_vec v) ∧ from_slice (to_vec v) = some v := by
  obtain ⟨h0, hv⟩ := canonicalOf_inv id v h
  subst h0; subst hv
  exact ⟨by decide, by decide⟩

/-- Witness for C1 at the registered identifier `0`. -/
theorem roundtrip_idempotence_witness :
    canonicalOf 0 = some canonical0 ∧
      (run_test 0 (to_vec canonical0) = .ok (to_vec canonical0) ∧
        from_slice (to_vec canonical0) = some canonical0) :=
  ⟨by decide, roundtrip_idempotence 0 canonical0 (by decide)⟩

/-- C2 counterexample: on a well-formed encoding of a value that differs from
the canonical value in one field, the oracle does fail with the mismatch
condition, but the report carried by that condition (the two compared values,
from `assert_eq!`) contains no identifier — so the claim that the failure
report includes at minimum the identifier is false on this input. -/
theorem mismatch_report_lacks_id :
    run_test 0 mismatchInput = .error (.RoundTripMismatch mismatchValue canonical0) ∧
    reportedId (.RoundTripMismatch mismatchValue canonical0) = none := by decide

/-- C2 (amended): for a registered identifier, an input that decodes to a
value different from the canonical value fails with the fatal
`RoundTripMismatch` condition (never a silent success); the condition reports
the decoded and canonical values but not the identifier. -/
theorem mismatch_detection (id : Nat) (vc : TestCase0) (input : List Nat)
    (v : TestCase0) (hc : canonicalOf id = some vc)
    (hd : from_slice input = some v) (hne : tcEq v vc = false) :
    run_test id input = .error (.RoundTripMismatch v vc) ∧
      reportedId (.RoundTripMismatch v vc) = none := by
  obtain ⟨h0, hvc⟩ := canonicalOf_inv id vc hc
  subst h0; subst hvc
  refine ⟨?_, rfl⟩
  show run_case input canonical0 = _
  simp [run_case, hd, hne]

/-- Witness for C2's amended theorem at the one-field-changed input. -/
theorem mismatch_detection_witness :
    canonicalOf 0 = some canonical0 ∧ from_slice mismatchInput = some mismatchValue ∧
      tcEq mismatchValue canonical0 = false ∧
      (run_test 0 mismatchInput = .error (.RoundTripMismatch mismatchValue canonical0) ∧
        reportedId (.RoundTripMismatch mismatchValue canonical0) = none) :=
  ⟨by decide, by decide, by decide,
    mismatch_detection 0 canonical0 mismatchInput mismatchValue (by decide) (by decide) (by decide)⟩

/-- C3: for a registered identifier, any input rejected by the decoder —
malformed bytes, bytes left unconsumed after the structure, and in particular
every strict prefix (truncation) of the canonical encoding — makes the oracle
fail with the fatal `DecodeError` condition, and a successful run can only
happen on an input the decoder accepts in full. -/
theorem decode_robustness (id : Nat) (vc : TestCase0) (input : List Nat)
    (hc : canonicalOf id = some vc) :
    (from_slice input = none → run_test id input = .error .DecodeError) ∧
    (∀ v rest, deserializeTestCase0 input = some (v, rest) → rest ≠ [] →
      run_test id input = .error .DecodeError) ∧
    (∀ n, n < (to_vec vc).length → input = (to_vec vc).take n →
      run_test id input = .error .DecodeError) ∧
    (∀ out, run_test id input = .ok out → from_slice input ≠ none) := by
  obtain ⟨h0, hvc⟩ := canonicalOf_inv id vc hc
  subst h0; subst hvc
  have key : from_slice input = none → run_test 0 input = .error .DecodeError := by
    intro hn
    show run_case input canonical0 = _
    simp [run_case, hn]
  refine ⟨key, ?_, ?_, ?_⟩
  · intro v rest hdes hne
    apply key
    unfold from_slice
    rw [hdes]
    cases rest with
    | nil => exact absurd rfl hne
    | cons a t => rfl
  · intro n hn hin
    subst hin
    have h45 : (to_vec canonical0).length = 45 := rfl
    exact key (prefix_invalid n (h45 ▸ hn))
  · intro out hok hn
    rw [key hn] at hok
    exact Except.noConfusion hok

/-- Witness for C3 at the truncated (empty) input for identifier `0`. -/
theorem decode_robustness_witness :
    canonicalOf 0 = some canonical0 ∧ from_slice ([] : List Nat) = none ∧
      run_test 0 [] = .error .DecodeError :=
  ⟨by decide, by decide, (decode_robustness 0 canonical0 [] (by decide)).1 (by decide)⟩

/-- C4: an identifier with no registry entry makes the oracle fail with the
fatal `UnsupportedCase` condition carrying that identifier; it never falls
back to a default case or returns output bytes. -/
theorem unknown_id_rejection (id : Nat) (input : List Nat)
    (h : canonicalOf id = none) :
    run_test id input = .error (.UnsupportedCase id) ∧
      reportedId (.UnsupportedCase id) = some id := by
  match id with
  | 0 => simp [canonicalOf] at h
  | n + 1 => exact ⟨rfl, rfl⟩

/-- Witness for C4 at the unregistered identifier `7`. -/
theorem unknown_id_rejection_witness :
    canonicalOf 7 = none ∧
      (run_test 7 [] = .error (.UnsupportedCase 7) ∧
        reportedId (.UnsupportedCase 7) = some 7) :=
  ⟨by decide, unknown_id_rejection 7 [] (by decide)⟩

/-- C5: whenever the oracle succeeds, the returned bytes are exactly the
re-encoding of the registered canonical value for that identifier. -/
theorem reencodes_canonical (id : Nat) (input : List Nat) (out : List Nat)
    (h : run_test id input = .ok out) :
    ∃ v, canonicalOf id = some v ∧ out = to_vec v := by
  obtain ⟨h0, hout⟩ := run_ok_shape id input out h
  subst h0
  exact ⟨canonical0, rfl, hout⟩

/-- Witness for C5 at identifier `0` on the canonical encoding. -/
theorem reencodes_canonical_witness :
    run_test 0 (to_vec canonical0) = .ok (to_vec canonical0) ∧
      ∃ v, canonicalOf 0 = some v ∧ to_vec canonical0 = to_vec v :=
  ⟨by decide, reencodes_canonical 0 (to_vec canonical0) (to_vec canonical0) (by decide)⟩

/-- C6: the oracle is a pure, deterministic function of its arguments — two
invocations with identical identifier and input bytes produce identical
results (identical output bytes, and identical failure conditions). -/
theorem run_deterministic (id : Nat) (input : List Nat)
    (r₁ r₂ : Except RunError (List Nat))
    (h₁ : run_test id input = r₁) (h₂ : run_test id input = r₂) : r₁ = r₂ := by
  subst h₁
  exact h₂

/-- Witness for C6: two runs on identifier `0` with the canonical bytes. -/
theorem run_deterministic_witness :
    run_test 0 (to_vec canonical0) = .ok (to_vec canonical0) ∧
      Except.ok (to_vec canonical0) = (.ok (to_vec canonical0) : Except RunError (List Nat)) :=
  ⟨by decide,
    run_deterministic 0 (to_vec canonical0) (.ok (to_vec canonical0)) (.ok (to_vec canonical0))
      (by decide) (by decide)⟩

/-- C7: the registry maps identifier `0` to the record with name `"ccccc"`
(UTF-8 bytes `[99, 99, 99, 99, 99]`), age `541212312321534534`, probability
`0.69` (IEEE-754 bit pattern `0x3FE6147AE147AE14`), and data `[31, 69]`;
running the oracle on that record's encoding returns bytes that decode to
exactly that record, with the floating-point bit pattern and the full-width
integer preserved exactly. -/
theorem case0_concrete :
    canonicalOf 0 =
      some ⟨[99, 99, 99, 99, 99], 541212312321534534, 4604390187031047700, [31, 69]⟩ ∧
    canonical0.prob = 0x3FE6147AE147AE14 ∧
    run_test 0 (to_vec canonical0) = .ok (to_vec canonical0) ∧
    from_slice (to_vec canonical0) = some canonical0 := by decide

/-- C8: whenever the boundary entry point returns normally, the length it
stores through `output_len` is exactly the byte count of the buffer produced
by the oracle, the stored pointer is non-null, and the buffer behind it holds
exactly those bytes at the moment of return (the `Vec` is forgotten, not
freed). -/
theorem boundary_out_params (id : Nat) (input : List Nat) (r : FfiOut)
    (h : roundtrip_test_case id input = .ok r) :
    r.len = r.buf.length ∧ run_test id input = .ok r.buf ∧ r.ptr ≠ 0 := by
  unfold roundtrip_test_case at h
  cases hr : run_test id input with
  | error e =>
    rw [hr] at h
    exact Except.noConfusion h
  | ok out =>
    rw [hr] at h
    simp only [Except.map] at h
    obtain rfl := Except.ok.inj h
    exact ⟨rfl, rfl, Nat.one_ne_zero⟩

/-- Witness for C8 at identifier `0` on the canonical encoding. -/
theorem boundary_out_params_witness :
    roundtrip_test_case 0 (to_vec canonical0) = .ok ⟨1, 45, to_vec canonical0⟩ ∧
      ((⟨1, 45, to_vec canonical0⟩ : FfiOut).len =
          (⟨1, 45, to_vec canonical0⟩ : FfiOut).buf.length ∧
        run_test 0 (to_vec canonical0) = .ok (⟨1, 45, to_vec canonical0⟩ : FfiOut).buf ∧
        (⟨1, 45, to_vec canonical0⟩ : FfiOut).ptr ≠ 0) :=
  ⟨by decide, boundary_out_params 0 (to_vec canonical0) ⟨1, 45, to_vec canonical0⟩ (by decide)⟩

/-- C9: the adapter does follow the transfer-of-ownership protocol
(`std::mem::forget` suppresses its own cleanup, so every successful call
hands the caller an owned buffer), yet `roundtrip_test_case` is the only
exported entry point — no paired release entry point exists, so the
transferred buffer can never be returned to the allocator. -/
theorem no_release_entry_point :
    transfersOwnership = true ∧
    roundtrip_test_case 0 (to_vec canonical0) =
      .ok ⟨1, (to_vec canonical0).length, to_vec canonical0⟩ ∧
    exportedEntryPoints = ["roundtrip_test_case"] ∧
    ¬∃ s ∈ exportedEntryPoints, s ≠ "roundtrip_test_case" := by decide

/-- C10: the successful output of the oracle does not depend on the input
bytes — any two successful runs for the same identifier return identical
byte sequences. -/
theorem output_input_independent (id : Nat) (a b : List Nat) (oa ob : List Nat)
    (ha : run_test id a = .ok oa) (hb : run_test id b = .ok ob) : oa = ob := by
  obtain ⟨-, h₁⟩ := run_ok_shape id a oa ha
  obtain ⟨-, h₂⟩ := run_ok_shape id b ob hb
  rw [h₁, h₂]

/-- Witness for C10: two successful runs at identifier `0`. -/
theorem output_input_independent_witness :
    run_test 0 (to_vec canonical0) = .ok (to_vec canonical0) ∧
      to_vec canonical0 = to_vec canonical0 :=
  ⟨by decide,
    output_input_independent 0 (to_vec canonical0) (to_vec canonical0)
      (to_vec canonical0) (to_vec canonical0) (by decide) (by decide)⟩
